import Mathlib

/-!
Verification of the runner-fleet reconciliation engine
(`build_tools/ucicd_resource_allocator.py`).

The Python source is shallowly embedded: every remote call (GitHub API,
SSH) is replaced by an explicit parameter carrying the outcome the call
would have produced, and the module-level dataclasses become structures.
Python integers are modelled as `Int`, Python lists as `List`.
-/

namespace UCICD

/-- Dataclass `RunnerRequirement`: a runner requirement from the configuration. -/
structure RunnerRequirement where
  label : String
  max_count : Int
  maas_tags : List String
  platform : String
  description : String
deriving DecidableEq

/-- Dataclass `RunnerStatus`: current status of runners for a specific label. -/
structure RunnerStatus where
  label : String
  connected_count : Int
  busy_count : Int
  idle_count : Int
deriving DecidableEq

/-- Dataclass `AllocationAction`: an action to be taken for runner allocation. -/
structure AllocationAction where
  label : String
  action : String
  count : Int
  reason : String
  requirement : Option RunnerRequirement
deriving DecidableEq

/-- Dataclass `PoolMachine`: a machine available in the pool. -/
structure PoolMachine where
  hostname : String
  tags : List String
  platform : String
  status : String
deriving DecidableEq

/-- Dataclass `RegisteredRunner`: a runner registered to the repository. -/
structure RegisteredRunner where
  id : Int
  name : String
  os : String
  status : String
  busy : Bool
  labels : List String
deriving DecidableEq

/-! ## Configuration loading (`load_config`) -/

/-- One entry of the `runners` list in the JSON configuration file.
`label` is accessed with `runner_config["label"]` (mandatory); every other
field is read with `.get(key, default)`, so it is modelled as an `Option`. -/
structure RunnerConfigEntry where
  label : String
  max_count : Option Int
  target_count : Option Int
  maas_tags : Option (List String)
  platform : Option String
  description : Option String
deriving DecidableEq

/-- Body of the `for runner_config in config.get("runners", [])` loop of
`load_config`: builds one `RunnerRequirement` from one config entry. -/
def loadEntry (e : RunnerConfigEntry) : RunnerRequirement :=
  { label := e.label
    max_count := e.max_count.getD 1
    maas_tags := e.maas_tags.getD []
    platform := e.platform.getD "linux"
    description := e.description.getD "" }

/-- `load_config` restricted to an already-parsed JSON document: maps
`loadEntry` over the `runners` list. -/
def load_config (entries : List RunnerConfigEntry) : List RunnerRequirement :=
  entries.map loadEntry

/-- Modelled from the spec (for comparison with `loadEntry`): a loader that
accepts the target count under either the `max_count` key or the
`target_count` key, as section 6 of the spec describes. -/
def loadEntrySpec (e : RunnerConfigEntry) : RunnerRequirement :=
  { label := e.label
    max_count := (match e.max_count with
      | some v => some v
      | none => e.target_count).getD 1
    maas_tags := e.maas_tags.getD []
    platform := e.platform.getD "linux"
    description := e.description.getD "" }

/-! ## Repository normalization (`normalize_repository`) -/

/-- Python `s.rstrip(chars)`: removes trailing characters that are members of
the character set `cs` (not the literal suffix). -/
def pyRstrip (s : String) (cs : List Char) : String :=
  ⟨(s.data.reverse.dropWhile (fun c => cs.contains c)).reverse⟩

/-- Splits a character list at every occurrence of the separator character
(the semantics of Python `str.split(sep)` and of `String.splitOn` for a
one-character separator): `a//b` gives `[a, [], b]`. -/
def splitOnChar (sep : Char) : List Char → List (List Char)
  | [] => [[]]
  | c :: rest =>
    let r := splitOnChar sep rest
    if c = sep then [] :: r
    else
      match r with
      | [] => [[c]]
      | g :: gs => (c :: g) :: gs

/-- The regex `^[^/]+/[^/]+$`: exactly one slash, with nonempty text on both
sides. -/
def matchesPlain (s : String) : Bool :=
  match splitOnChar '/' s.data with
  | [a, b] => !a.isEmpty && !b.isEmpty
  | _ => false

/-- Strips the pattern `p` from the front of the character list, or fails. -/
def stripPrefixCharsOpt (l p : List Char) : Option (List Char) :=
  if p.isPrefixOf l then some (l.drop p.length) else none

/-- Shared tail of the two URL regexes: splits `t` as
`([^/]+)/([^/]+?)(?:\.git)?` returning the owner and the repo component; the
lazy group plus the optional `\.git` strip exactly one trailing `.git` when
the part before it is nonempty. -/
def splitOwnerRepo (t : List Char) : Option (String × String) :=
  match splitOnChar '/' t with
  | [owner, rest] =>
    if owner.isEmpty then none
    else
      let core := if ['.', 'g', 'i', 't'].isSuffixOf rest && decide (4 < rest.length)
        then (rest.reverse.drop 4).reverse else rest
      if core.isEmpty then none else some (⟨owner⟩, ⟨core⟩)
  | _ => none

/-- The regex `^https?://github\.com/([^/]+)/([^/]+?)(?:\.git)?/?$` as used by
`normalize_repository`, returning the two captured groups. -/
def matchesHttps (s : String) : Option (String × String) :=
  match (stripPrefixCharsOpt s.data "https://".data).orElse
      (fun _ => stripPrefixCharsOpt s.data "http://".data) with
  | none => none
  | some r1 =>
    match stripPrefixCharsOpt r1 "github.com/".data with
    | none => none
    | some t =>
      let t1 := if ['/'].isSuffixOf t then t.dropLast else t
      splitOwnerRepo t1

/-- The regex `^git@github\.com:([^/]+)/([^/]+?)(?:\.git)?$` as used by
`normalize_repository`, returning the two captured groups. -/
def matchesSsh (s : String) : Option (String × String) :=
  match stripPrefixCharsOpt s.data "git@github.com:".data with
  | none => none
  | some t => splitOwnerRepo t

/-- `normalize_repository`: tries the plain `owner/repo` pattern (returning
`repository.rstrip('.git')`), then the HTTPS URL pattern, then the SSH URL
pattern; `none` models the final `raise ValueError`. -/
def normalize_repository (repository : String) : Option String :=
  if matchesPlain repository then
    some (pyRstrip repository ['.', 'g', 'i', 't'])
  else
    match matchesHttps repository with
    | some (o, r) => some (o ++ "/" ++ r)
    | none =>
      match matchesSsh repository with
      | some (o, r) => some (o ++ "/" ++ r)
      | none => none

/-! ## Observed status (`get_current_runners`) -/

/-- The `platform_to_os` mapping with its `.get(platform, platform)` default. -/
def osOf (platform : String) : String :=
  if platform = "linux" then "Linux"
  else if platform = "windows" then "Windows"
  else platform

/-- Per-runner filter of `get_current_runners`: the runner must carry at least
one of the `maas_tags` as a label AND its `os` field must equal the expected
OS for `platform`.  The runner's `status` field (online/offline) is not
consulted. -/
def runnerMatches (maas_tags : List String) (platform : String)
    (r : RegisteredRunner) : Bool :=
  maas_tags.any (fun t => decide (t ∈ r.labels)) && r.os = osOf platform

/-- `get_current_runners`, with the paginated GitHub listing replaced by the
full list of registered runners it would return. -/
def get_current_runners (runners : List RegisteredRunner)
    (maas_tags : List String) (platform : String) : RunnerStatus :=
  let matching := runners.filter (runnerMatches maas_tags platform)
  { label := String.intercalate "," maas_tags
    connected_count := (matching.length : Int)
    busy_count := ((matching.filter (fun r => r.busy)).length : Int)
    idle_count := ((matching.filter (fun r => !r.busy)).length : Int) }

/-! ## Allocation planner (`calculate_allocation_actions`) -/

/-- Loop body of `calculate_allocation_actions` for one requirement, given the
observed status the GitHub query returned. -/
def actionFor (req : RunnerRequirement) (status : RunnerStatus) : AllocationAction :=
  if status.connected_count < req.max_count then
    { label := req.label
      action := "add"
      count := req.max_count - status.connected_count
      reason := "Below target (" ++ toString status.connected_count ++ "/" ++
        toString req.max_count ++ ")"
      requirement := some req }
  else
    { label := req.label
      action := "none"
      count := 0
      reason := "OK (" ++ toString status.connected_count ++ "/" ++
        toString req.max_count ++ " runners)"
      requirement := some req }

/-- `calculate_allocation_actions`: one action per requirement, in input
order.  `getStatus` stands for the `get_current_runners` call (a GitHub API
read) made for each requirement's tags and platform. -/
def calculate_allocation_actions (requirements : List RunnerRequirement)
    (getStatus : List String → String → RunnerStatus) : List AllocationAction :=
  requirements.map (fun req => actionFor req (getStatus req.maas_tags req.platform))

/-! ## Remote provisioning driver (`register_runner_on_linux/windows`) -/

/-- Result of one `run_ssh_command` call: `(success, stdout, stderr)`. -/
structure SshOutcome where
  ok : Bool
  stdout : String
  stderr : String
deriving DecidableEq

/-- Python `pat in s` (substring test) on character lists. -/
def listHasInfix (pat : List Char) : List Char → Bool
  | [] => pat.isEmpty
  | c :: rest => pat.isPrefixOf (c :: rest) || listHasInfix pat rest

/-- Python `pat in s` on strings. -/
def strHasInfix (s pat : String) : Bool :=
  listHasInfix pat.data s.data

/-- Outcomes of the SSH commands `register_runner_on_linux` issues, in source
order: configure, service install, service start. -/
structure LinuxSshRun where
  configure : SshOutcome
  installService : SshOutcome
  startService : SshOutcome
deriving DecidableEq

/-- `register_runner_on_linux`: the configure failure is fatal; the service
install and service start steps only print warnings on failure. -/
def register_runner_on_linux (run : LinuxSshRun) : Bool :=
  if !run.configure.ok then
    false
  else
    -- install step: `WARNING: Service install returned non-zero`, continue
    -- start step: `WARNING: Service start returned non-zero`, continue
    true

/-- Outcomes of the SSH commands `register_runner_on_windows` may issue, in
source order: configure, the `Test-Path ...svc.cmd` check, service install,
service start, scheduled-task creation, scheduled-task start. -/
structure WindowsSshRun where
  configure : SshOutcome
  checkSvc : SshOutcome
  installService : SshOutcome
  startService : SshOutcome
  createTask : SshOutcome
  startTask : SshOutcome
deriving DecidableEq

/-- `register_runner_on_windows`: configure failure is fatal; if
`svc.cmd` exists (check succeeded and its stdout contains `"True"`), a
service install or service start failure returns `False`; otherwise the
scheduled-task fallback is used, where task creation failure returns `False`
but a task start failure only prints a warning. -/
def register_runner_on_windows (run : WindowsSshRun) : Bool :=
  if !run.configure.ok then
    false
  else
    let has_svc_cmd := run.checkSvc.ok && strHasInfix run.checkSvc.stdout "True"
    if has_svc_cmd then
      if !run.installService.ok then false
      else if !run.startService.ok then false
      else true
    else
      if !run.createTask.ok then false
      else
        -- task start step: `WARNING: Failed to start scheduled task`, continue
        true

/-! ## Pool lookup and allocation (`get_available_machines_from_pool`,
`allocate_runners`, `execute_actions`) -/

/-- The filtering loop of `get_available_machines_from_pool`, over an
arbitrary pool (the source's `mock_pool` is one instance): keeps machines
whose platform matches, that share at least one tag, and whose status is
`available`. -/
def get_available_machines_from_pool (pool : List PoolMachine)
    (tags : List String) (platform : String) : List PoolMachine :=
  pool.filter (fun m =>
    m.platform = platform
      && tags.any (fun t => decide (t ∈ m.tags))
      && m.status = "available")

/-- Result of `allocate_runners`: its `(success, reason)` return value plus,
for the analysis, the machines it targeted (`machines_to_allocate`) and the
machines whose `register_runner` call returned true. -/
structure AllocOut where
  ok : Bool
  reason : String
  targeted : List PoolMachine
  registered : List PoolMachine
deriving DecidableEq

/-- `allocate_runners` for one `add` action.  `registeredNames` is the result
of `get_all_registered_runner_names` (`none` models its `ValueError`),
`tokenOk` tells whether `generate_runner_registration_token` succeeded, and
`regOk` gives the outcome of `register_runner` for each machine. -/
def allocate_runners (count : Int) (req : RunnerRequirement)
    (pool : List PoolMachine) (registeredNames : Option (List String))
    (tokenOk : Bool) (regOk : PoolMachine → Bool) : AllocOut :=
  let available := get_available_machines_from_pool pool req.maas_tags req.platform
  if available = [] then
    ⟨true, "pool_exhausted", [], []⟩
  else
    match registeredNames with
    | none => ⟨false, "error", [], []⟩
    | some names =>
      let unregistered := available.filter (fun m => !(decide (m.hostname ∈ names)))
      if unregistered = [] then
        ⟨true, "pool_exhausted", [], []⟩
      else
        let machines_to_allocate := unregistered.take count.toNat
        if !tokenOk then
          ⟨false, "error", [], []⟩
        else
          let succ := machines_to_allocate.filter regOk
          if succ.length = 0 then
            ⟨false, "error", machines_to_allocate, succ⟩
          else if succ.length < machines_to_allocate.length then
            ⟨true, "partial", machines_to_allocate, succ⟩
          else
            ⟨true, "success", machines_to_allocate, succ⟩

/-- `execute_actions`, abstracted over the `allocate_runners` call (which the
source invokes as `allocate_runners(action, action.requirement, repository)`);
returns `(success_count, failure_count, pool_exhausted_count)`. -/
def execute_actions (actions : List AllocationAction)
    (alloc : AllocationAction → RunnerRequirement → Bool × String) :
    Nat × Nat × Nat :=
  match actions with
  | [] => (0, 0, 0)
  | a :: rest =>
    let r := execute_actions rest alloc
    if a.action = "add" then
      match a.requirement with
      | none => (r.1, r.2.1 + 1, r.2.2)
      | some req =>
        let o := alloc a req
        if o.2 = "pool_exhausted" then (r.1, r.2.1, r.2.2 + 1)
        else if o.1 then (r.1 + 1, r.2.1, r.2.2)
        else (r.1, r.2.1 + 1, r.2.2)
    else
      r

/-- The exit decision shared by both modes of `main`: exit 1 when the failure
count is positive, otherwise return 0. -/
def exitCodeOfFailures (failures : Nat) : Nat :=
  if 0 < failures then 1 else 0

/-! ## Directory deletion (`delete_runner_from_github`) -/

/-- `delete_runner_from_github`, as a function of the HTTP status code the
DELETE call returned: 204 is success, 401 is failure, 404 ("may already be
deleted") is treated as success, anything else is failure. -/
def delete_runner_from_github (statusCode : Nat) : Bool :=
  if statusCode = 204 then true
  else if statusCode = 401 then false
  else if statusCode = 404 then true
  else false

/-! ## Release manager (`release_all_runners`) -/

/-- Result of `release_all_runners`: its `(success_count, failure_count)`
return value plus, for the analysis, the runner list that survived the
hostname/prefix filter, the runners for which an SSH `unregister` was
attempted, the runners for which a GitHub directory delete was attempted,
and the runners counted as released. -/
structure ReleaseResult where
  success_count : Nat
  failure_count : Nat
  filtered : List RegisteredRunner
  unregAttempts : List RegisteredRunner
  deleteAttempts : List RegisteredRunner
  released : List RegisteredRunner
deriving DecidableEq

/-- The hostname/prefix selection of `release_all_runners` (Python truthiness:
an empty hostname list or an empty prefix string disables that filter);
`none` models the early `return 0, 0` when the filter matches nothing. -/
def selectRunners (runners : List RegisteredRunner) (pfx : Option String)
    (hostnames : Option (List String)) : Option (List RegisteredRunner) :=
  let hs := (hostnames.getD [])
  if !hs.isEmpty then
    let f := runners.filter (fun r => decide (r.name ∈ hs))
    if f = [] then none else some f
  else
    let p := (pfx.getD "")
    if !(p = "") then
      let f := runners.filter (fun r => p.data.isPrefixOf r.name.data)
      if f = [] then none else some f
    else
      some runners

/-- Per-runner accumulator of the release loop. -/
structure ReleaseLoopOut where
  succ : Nat
  fail : Nat
  unreg : List RegisteredRunner
  dels : List RegisteredRunner
  released : List RegisteredRunner
deriving DecidableEq

/-- The `for runner in runners` release loop: a busy runner without force is
skipped and counted as a failure; otherwise SSH unregistration is attempted,
and on SSH failure force mode falls back to deleting the directory record. -/
def releaseLoop (force : Bool) (sshOk ghOk : RegisteredRunner → Bool) :
    List RegisteredRunner → ReleaseLoopOut
  | [] => ⟨0, 0, [], [], []⟩
  | r :: rs =>
    let rest := releaseLoop force sshOk ghOk rs
    if r.busy && !force then
      { rest with fail := rest.fail + 1 }
    else if sshOk r then
      { rest with
          succ := rest.succ + 1
          unreg := r :: rest.unreg
          released := r :: rest.released }
    else if force then
      if ghOk r then
        { rest with
            succ := rest.succ + 1
            unreg := r :: rest.unreg
            dels := r :: rest.dels
            released := r :: rest.released }
      else
        { rest with
            fail := rest.fail + 1
            unreg := r :: rest.unreg
            dels := r :: rest.dels }
    else
      { rest with fail := rest.fail + 1, unreg := r :: rest.unreg }

/-- `release_all_runners`.  `runners` is the listing returned by
`get_all_registered_runners`, `tokenOk` tells whether
`generate_runner_removal_token` succeeded, `sshOk` gives the outcome of
`unregister_runner_on_machine` per runner and `ghOk` the outcome of
`delete_runner_from_github` per runner. -/
def release_all_runners (runners : List RegisteredRunner) (force : Bool)
    (pfx : Option String) (hostnames : Option (List String)) (tokenOk : Bool)
    (sshOk ghOk : RegisteredRunner → Bool) : ReleaseResult :=
  if runners = [] then
    ⟨0, 0, [], [], [], []⟩
  else
    match selectRunners runners pfx hostnames with
    | none => ⟨0, 0, [], [], [], []⟩
    | some sel =>
      let busy := sel.filter (fun r => r.busy)
      if !busy.isEmpty && !force then
        ⟨0, busy.length, sel, [], [], []⟩
      else if !tokenOk then
        ⟨0, sel.length, sel, [], [], []⟩
      else
        let out := releaseLoop force sshOk ghOk sel
        ⟨out.succ, out.fail, sel, out.unreg, out.dels, out.released⟩

/-! ## Whole-pass reconciliation (system model for idempotency)

`main` runs `calculate_allocation_actions` and then `execute_actions`;
each successful `register_runner` attaches the machine to the repository,
so a later GitHub listing reports a record named after the machine and
labelled `[platform] + maas_tags` (the labels `allocate_runners` passes).
The registration token is modelled as always issued and the listing as
always succeeding; `regOk` is the per-hostname registration outcome,
identical across the two runs ("no external state change"). -/

/-- The directory record created by successfully registering machine `m` for
requirement `req` (labels as built in `allocate_runners`; GitHub reports the
runner's OS, which for a pool machine of the requirement's platform is the
value `get_current_runners` expects). -/
def runnerRecordOf (req : RunnerRequirement) (m : PoolMachine) : RegisteredRunner :=
  { id := 0
    name := m.hostname
    os := osOf req.platform
    status := "online"
    busy := false
    labels := req.platform :: req.maas_tags }

/-- Effect of one executed action on the registration directory: an `add`
action runs `allocate_runners` against the current directory listing and the
machines it registers become directory records; returns the new directory and
the number of new registrations. -/
def execAdd (pool : List PoolMachine) (regOk : String → Bool)
    (dir : List RegisteredRunner) (act : AllocationAction) :
    List RegisteredRunner × Nat :=
  match act.requirement with
  | none => (dir, 0)
  | some req =>
    if act.action = "add" then
      let out := allocate_runners act.count req pool (some (dir.map (fun r => r.name)))
        true (fun m => regOk m.hostname)
      (dir ++ out.registered.map (runnerRecordOf req), out.registered.length)
    else
      (dir, 0)

/-- Sequential execution of the planned actions, threading the directory. -/
def runActions (pool : List PoolMachine) (regOk : String → Bool) :
    List AllocationAction → List RegisteredRunner → List RegisteredRunner × Nat
  | [], dir => (dir, 0)
  | a :: rest, dir =>
    let s := execAdd pool regOk dir a
    let r := runActions pool regOk rest s.1
    (r.1, s.2 + r.2)

/-- One full reconciliation pass: plan from the current directory listing,
then execute; returns the directory afterwards and the number of new
registrations the pass performed. -/
def reconcileOnce (reqs : List RunnerRequirement) (pool : List PoolMachine)
    (regOk : String → Bool) (dir : List RegisteredRunner) :
    List RegisteredRunner × Nat :=
  runActions pool regOk
    (calculate_allocation_actions reqs (fun tags p => get_current_runners dir tags p))
    dir

/-! ## Scenario fixtures -/

/-- Scenario D runner `CI-1` (idle). -/
def ciRunner1 : RegisteredRunner :=
  { id := 1, name := "CI-1", os := "Linux", status := "online", busy := false,
    labels := ["linux"] }

/-- Scenario D runner `CI-2` (busy). -/
def ciRunner2 : RegisteredRunner :=
  { id := 2, name := "CI-2", os := "Linux", status := "online", busy := true,
    labels := ["linux"] }

/-- Scenario D runner `CI-9` (idle). -/
def ciRunner9 : RegisteredRunner :=
  { id := 9, name := "CI-9", os := "Linux", status := "online", busy := false,
    labels := ["linux"] }

/-- Fixture: a config entry that supplies the target count only under the
`target_count` key. -/
def targetCountOnlyEntry : RunnerConfigEntry :=
  { label := "r", max_count := none, target_count := some 5,
    maas_tags := none, platform := none, description := none }

/-! ## Claims -/

/-- C1 counterexample: in the Scenario D run (prefix `CI-`, no force, runners
`CI-1` idle / `CI-2` busy / `CI-9` idle), the claim fails twice: `CI-9` is NOT
excluded by the prefix filter (its name does start with `CI-`), and `CI-1` is
NOT released — the batch-level busy check aborts the run before any release,
so the released list is empty. -/
theorem C1_scenarioD_counterexample :
    ciRunner9 ∈ (release_all_runners [ciRunner1, ciRunner2, ciRunner9] false
        (some "CI-") none true (fun _ => true) (fun _ => true)).filtered
    ∧ (release_all_runners [ciRunner1, ciRunner2, ciRunner9] false
        (some "CI-") none true (fun _ => true) (fun _ => true)).released = []
    ∧ ciRunner1 ∉ (release_all_runners [ciRunner1, ciRunner2, ciRunner9] false
        (some "CI-") none true (fun _ => true) (fun _ => true)).released := by
  refine ⟨by decide, by decide, by decide⟩

/-- C1 amended: in the Scenario D run, `CI-9` matches the `CI-` prefix so all
three runners survive the filter; because `CI-2` is busy and force is not set
the whole run aborts before releasing anything, counting the busy runner as
the single failure (success count 0), and the process exits 1. -/
theorem C1_scenarioD_amended :
    release_all_runners [ciRunner1, ciRunner2, ciRunner9] false (some "CI-")
        none true (fun _ => true) (fun _ => true)
      = { success_count := 0, failure_count := 1,
          filtered := [ciRunner1, ciRunner2, ciRunner9],
          unregAttempts := [], deleteAttempts := [], released := [] }
    ∧ exitCodeOfFailures (release_all_runners [ciRunner1, ciRunner2, ciRunner9]
        false (some "CI-") none true (fun _ => true) (fun _ => true)).failure_count
      = 1 := by
  refine ⟨by decide, by decide⟩

/-- C4 counterexample: a config entry that supplies the target count only
under the `target_count` key is not accepted — the loader falls back to the
default 1 instead of reading 5, diverging from the spec-modelled loader that
accepts either key. -/
theorem C4_target_count_counterexample :
    (loadEntry targetCountOnlyEntry).max_count = 1
    ∧ loadEntry targetCountOnlyEntry ≠ loadEntrySpec targetCountOnlyEntry := by
  refine ⟨by decide, by decide⟩

/-- C4 amended: the loader accepts the target count only under the `max_count`
key — the `target_count` key is ignored entirely — and applies the documented
defaults for omitted optional fields: target count 1 (a small positive
integer), tag set empty, platform linux, description empty. -/
theorem C4_loader_defaults :
    ∀ (e : RunnerConfigEntry) (v : Option Int),
      loadEntry { e with target_count := v } = loadEntry e
      ∧ (loadEntry e).max_count = e.max_count.getD 1
      ∧ (loadEntry e).maas_tags = e.maas_tags.getD []
      ∧ (loadEntry e).platform = e.platform.getD "linux"
      ∧ (loadEntry e).description = e.description.getD ""
      ∧ load_config [e] = [loadEntry e] := by
  intro e v
  exact ⟨rfl, rfl, rfl, rfl, rfl, rfl⟩

/-- C5 counterexample: on the windows path with `svc.cmd` present, a failing
service-install step alone flips the registration result to `False`
(configuration succeeded and every other step succeeded), contradicting the
claim that service-install failures are only logged as warnings. -/
theorem C5_windows_install_counterexample :
    register_runner_on_windows
      { configure := ⟨true, "", ""⟩, checkSvc := ⟨true, "True", ""⟩,
        installService := ⟨false, "", "boom"⟩, startService := ⟨true, "", ""⟩,
        createTask := ⟨true, "", ""⟩, startTask := ⟨true, "", ""⟩ } = false
    ∧ register_runner_on_windows
      { configure := ⟨true, "", ""⟩, checkSvc := ⟨true, "True", ""⟩,
        installService := ⟨true, "", ""⟩, startService := ⟨true, "", ""⟩,
        createTask := ⟨true, "", ""⟩, startTask := ⟨true, "", ""⟩ } = true := by
  refine ⟨by decide, by decide⟩

/-- C5 amended: a failing configuration command is fatal on both paths; on
linux the service-install and service-start outcomes never affect the result,
but on windows they do whenever `svc.cmd` is present — only in the
scheduled-task fallback is the final start step downgraded to a warning
(task creation failure is still fatal). -/
theorem C5_registration_fatality :
    ∀ (lrun : LinuxSshRun) (wrun : WindowsSshRun),
      register_runner_on_linux lrun = lrun.configure.ok
      ∧ (wrun.configure.ok = false → register_runner_on_windows wrun = false)
      ∧ (wrun.configure.ok = true →
          (wrun.checkSvc.ok && strHasInfix wrun.checkSvc.stdout "True") = true →
          register_runner_on_windows wrun
            = (wrun.installService.ok && wrun.startService.ok))
      ∧ (wrun.configure.ok = true →
          (wrun.checkSvc.ok && strHasInfix wrun.checkSvc.stdout "True") = false →
          register_runner_on_windows wrun = wrun.createTask.ok) := by
  intro lrun wrun
  refine ⟨?_, ?_, ?_, ?_⟩
  · cases h : lrun.configure.ok <;> simp [register_runner_on_linux, h]
  · intro h; simp [register_runner_on_windows, h]
  · intro h hsvc
    cases hi : wrun.installService.ok <;> cases hs : wrun.startService.ok <;>
      simp [register_runner_on_windows, h, hsvc, hi, hs]
  · intro h hsvc
    cases hc : wrun.createTask.ok <;>
      simp [register_runner_on_windows, h, hsvc, hc]

/-- C5 witness: the amended theorem applied to a concrete windows run with
configuration succeeded and `svc.cmd` detected. -/
theorem C5_registration_fatality_witness :
    (SshOutcome.ok ⟨true, "", ""⟩ = true)
    ∧ ((SshOutcome.ok ⟨true, "True", ""⟩ && strHasInfix "True" "True") = true)
    ∧ register_runner_on_windows
        { configure := ⟨true, "", ""⟩, checkSvc := ⟨true, "True", ""⟩,
          installService := ⟨false, "", ""⟩, startService := ⟨true, "", ""⟩,
          createTask := ⟨true, "", ""⟩, startTask := ⟨true, "", ""⟩ }
      = (false && true) :=
  ⟨by decide, by decide,
    (C5_registration_fatality
      { configure := ⟨true, "", ""⟩, installService := ⟨true, "", ""⟩,
        startService := ⟨true, "", ""⟩ }
      { configure := ⟨true, "", ""⟩, checkSvc := ⟨true, "True", ""⟩,
        installService := ⟨false, "", ""⟩, startService := ⟨true, "", ""⟩,
        createTask := ⟨true, "", ""⟩, startTask := ⟨true, "", ""⟩ }).2.2.1
      (by decide) (by decide)⟩

/-- C8: deleting a directory record whose runner id is already absent (the
DELETE call answers 404 not-found) returns success, unlike the 401 and
generic error responses. -/
theorem C8_delete_absent_success :
    delete_runner_from_github 404 = true
    ∧ delete_runner_from_github 204 = true
    ∧ delete_runner_from_github 401 = false
    ∧ delete_runner_from_github 500 = false := by
  refine ⟨by decide, by decide, by decide, by decide⟩

/-- C9: evaluation at the failing inputs.  An SSH URL is captured by the
plain `owner/repo` regex first (it contains exactly one slash), so it is
returned with the `git@github.com:` prefix intact instead of being
normalized to `foo/bar`; moreover `rstrip('.git')` strips a character SET,
mangling a plain repository name that ends in those characters. -/
theorem C9_normalize_divergence :
    normalize_repository "git@github.com:foo/bar.git"
        = some "git@github.com:foo/bar"
    ∧ normalize_repository "git@github.com:foo/bar.git" ≠ some "foo/bar"
    ∧ normalize_repository "foo/big" = some "foo/b"
    ∧ normalize_repository "https://github.com/foo/bar.git" = some "foo/bar" := by
  refine ⟨by decide, by decide, by decide, by decide⟩

/-- Without force, the release loop never attempts a directory delete, and
every runner it attempts to SSH-unregister is idle. -/
theorem releaseLoop_noforce_safety (sshOk ghOk : RegisteredRunner → Bool) :
    ∀ rs : List RegisteredRunner,
      (releaseLoop false sshOk ghOk rs).dels = []
      ∧ ∀ r ∈ (releaseLoop false sshOk ghOk rs).unreg, r.busy = false := by
  intro rs
  induction rs with
  | nil => exact ⟨rfl, by intro r h; cases h⟩
  | cons a rs ih =>
    cases hb : a.busy with
    | true =>
      refine ⟨?_, ?_⟩
      · simpa [releaseLoop, hb] using ih.1
      · intro r hr
        exact ih.2 r (by simpa [releaseLoop, hb] using hr)
    | false =>
      cases hss : sshOk a with
      | true =>
        refine ⟨by simpa [releaseLoop, hb, hss] using ih.1, ?_⟩
        intro r hr
        rw [show (releaseLoop false sshOk ghOk (a :: rs)).unreg
            = a :: (releaseLoop false sshOk ghOk rs).unreg by
          simp [releaseLoop, hb, hss]] at hr
        rcases List.mem_cons.mp hr with h | h
        · rw [h]; exact hb
        · exact ih.2 r h
      | false =>
        refine ⟨by simpa [releaseLoop, hb, hss] using ih.1, ?_⟩
        intro r hr
        rw [show (releaseLoop false sshOk ghOk (a :: rs)).unreg
            = a :: (releaseLoop false sshOk ghOk rs).unreg by
          simp [releaseLoop, hb, hss]] at hr
        rcases List.mem_cons.mp hr with h | h
        · rw [h]; exact hb
        · exact ih.2 r h

/-- C2: in a run whose force flag is not set, a busy registered runner is
never SSH-unregistered nor deleted from the directory: every runner the
release manager attempts to act on is idle. -/
theorem C2_busy_never_released_without_force :
    ∀ (runners : List RegisteredRunner) (pfx : Option String)
      (hostnames : Option (List String)) (tokenOk : Bool)
      (sshOk ghOk : RegisteredRunner → Bool) (r : RegisteredRunner),
      r ∈ (release_all_runners runners false pfx hostnames tokenOk sshOk ghOk).unregAttempts
        ∨ r ∈ (release_all_runners runners false pfx hostnames tokenOk sshOk ghOk).deleteAttempts →
      r.busy = false := by
  intro runners pfx hostnames tokenOk sshOk ghOk r hmem
  unfold release_all_runners at hmem
  split at hmem
  · rcases hmem with h | h <;> cases h
  · rename_i hne
    rcases hsel : selectRunners runners pfx hostnames with _ | sel <;> rw [hsel] at hmem
    · rcases hmem with h | h <;> cases h
    · simp only at hmem
      split at hmem
      · rcases hmem with h | h <;> cases h
      · split at hmem
        · rcases hmem with h | h <;> cases h
        · rcases hmem with h | h
          · exact (releaseLoop_noforce_safety sshOk ghOk sel).2 r h
          · rw [(releaseLoop_noforce_safety sshOk ghOk sel).1] at h
            cases h

/-- C2 witness: a concrete no-force run in which an idle runner is
SSH-unregistered; the safety theorem yields that it is idle. -/
theorem C2_busy_never_released_without_force_witness :
    ((⟨1, "X", "Linux", "online", false, []⟩ : RegisteredRunner)
        ∈ (release_all_runners [⟨1, "X", "Linux", "online", false, []⟩] false
            none none true (fun _ => true) (fun _ => true)).unregAttempts
      ∨ (⟨1, "X", "Linux", "online", false, []⟩ : RegisteredRunner)
        ∈ (release_all_runners [⟨1, "X", "Linux", "online", false, []⟩] false
            none none true (fun _ => true) (fun _ => true)).deleteAttempts)
    ∧ (⟨1, "X", "Linux", "online", false, []⟩ : RegisteredRunner).busy = false :=
  ⟨Or.inl (by decide),
    C2_busy_never_released_without_force [⟨1, "X", "Linux", "online", false, []⟩]
      none none true (fun _ => true) (fun _ => true)
      ⟨1, "X", "Linux", "online", false, []⟩ (Or.inl (by decide))⟩

/-- C3: the planner emits exactly one action per requirement, in input order
(the output is pointwise related to the input); a satisfied requirement
(`connected >= target`) yields `none` with count 0, and an unsatisfied one
yields `add` with count `target - connected`, which is never negative. -/
theorem C3_planner_one_action_per_requirement :
    ∀ (reqs : List RunnerRequirement)
      (getStatus : List String → String → RunnerStatus),
      List.Forall₂ (fun (req : RunnerRequirement) (act : AllocationAction) =>
          act.requirement = some req
          ∧ act.label = req.label
          ∧ (req.max_count ≤ (getStatus req.maas_tags req.platform).connected_count →
              act.action = "none" ∧ act.count = 0)
          ∧ ((getStatus req.maas_tags req.platform).connected_count < req.max_count →
              act.action = "add"
              ∧ act.count
                  = req.max_count - (getStatus req.maas_tags req.platform).connected_count
              ∧ 0 ≤ act.count))
        reqs (calculate_allocation_actions reqs getStatus) := by
  intro reqs getStatus
  unfold calculate_allocation_actions
  rw [List.forall₂_map_right_iff, List.forall₂_same]
  intro req _
  by_cases h : (getStatus req.maas_tags req.platform).connected_count < req.max_count
  · refine ⟨by simp [actionFor, h], by simp [actionFor, h], ?_, ?_⟩
    · intro hge; omega
    · intro _
      refine ⟨by simp [actionFor, h], by simp [actionFor, h], ?_⟩
      have : (actionFor req (getStatus req.maas_tags req.platform)).count
          = req.max_count - (getStatus req.maas_tags req.platform).connected_count := by
        simp [actionFor, h]
      omega
  · refine ⟨by simp [actionFor, h], by simp [actionFor, h], ?_, ?_⟩
    · intro _; exact ⟨by simp [actionFor, h], by simp [actionFor, h]⟩
    · intro hlt; omega

/-- C10: the observed-status computation never consults the online/offline
status field — rewriting every runner's status leaves the result unchanged —
and each runner is counted as connected (busy or idle per its busy flag)
exactly when its labels intersect the tags and its OS matches the platform;
consequently an offline runner that matches makes `connected >= target`
possible and then the planner emits a `none` action for the requirement. -/
theorem C10_offline_runners_counted :
    (∀ (tags : List String) (p st : String) (r : RegisteredRunner),
        runnerMatches tags p { r with status := st } = runnerMatches tags p r)
    ∧ (∀ (runners : List RegisteredRunner) (tags : List String) (p : String)
          (f : RegisteredRunner → String),
        get_current_runners (runners.map (fun r => { r with status := f r })) tags p
          = get_current_runners runners tags p)
    ∧ (∀ (runners : List RegisteredRunner) (tags : List String) (p : String)
          (r : RegisteredRunner),
        (get_current_runners (r :: runners) tags p).connected_count
          = (if runnerMatches tags p r then 1 else 0)
              + (get_current_runners runners tags p).connected_count
        ∧ (get_current_runners (r :: runners) tags p).busy_count
          = (if runnerMatches tags p r && r.busy then 1 else 0)
              + (get_current_runners runners tags p).busy_count
        ∧ (get_current_runners (r :: runners) tags p).idle_count
          = (if runnerMatches tags p r && !r.busy then 1 else 0)
              + (get_current_runners runners tags p).idle_count)
    ∧ (∀ (runners : List RegisteredRunner) (req : RunnerRequirement),
        req.max_count ≤ (get_current_runners runners req.maas_tags req.platform).connected_count →
        calculate_allocation_actions [req]
            (fun ts pl => get_current_runners runners ts pl)
          = [actionFor req (get_current_runners runners req.maas_tags req.platform)]
        ∧ (actionFor req (get_current_runners runners req.maas_tags req.platform)).action
            = "none"
        ∧ (actionFor req (get_current_runners runners req.maas_tags req.platform)).count
            = 0) := by
  refine ⟨?_, ?_, ?_, ?_⟩
  · intro tags p st r; cases r; rfl
  · intro runners tags p f
    induction runners with
    | nil => rfl
    | cons a rs ih =>
      have hmatch : runnerMatches tags p { a with status := f a }
          = runnerMatches tags p a := by cases a; rfl
      simp only [get_current_runners, List.map_cons, List.filter_cons] at ih ⊢
      cases hm : runnerMatches tags p a with
      | true =>
        have hbusy : ({ a with status := f a } : RegisteredRunner).busy = a.busy := rfl
        simp only [hmatch, hm, if_pos, List.filter_cons, hbusy] at ih ⊢
        cases hb : a.busy <;> simp_all [RunnerStatus.mk.injEq]
      | false =>
        simp only [hmatch, hm] at ih ⊢
        simp_all
  · intro runners tags p r
    refine ⟨?_, ?_, ?_⟩ <;>
      cases hm : runnerMatches tags p r <;>
        cases hb : r.busy <;>
          simp [get_current_runners, List.filter_cons, hm, hb] <;>
            omega
  · intro runners req hge
    have hnot : ¬ (get_current_runners runners req.maas_tags req.platform).connected_count
        < req.max_count := by omega
    exact ⟨rfl, by simp [actionFor, hnot], by simp [actionFor, hnot]⟩

/-- C10 witness: a single offline runner carrying a matching tag is counted
as connected, satisfying a target of 1, and the planner plans `none`. -/
theorem C10_offline_runners_counted_witness :
    ((⟨"lab", 1, ["t"], "linux", ""⟩ : RunnerRequirement).max_count
      ≤ (get_current_runners [⟨7, "host", "Linux", "offline", false, ["t"]⟩]
          ["t"] "linux").connected_count)
    ∧ (actionFor ⟨"lab", 1, ["t"], "linux", ""⟩
        (get_current_runners [⟨7, "host", "Linux", "offline", false, ["t"]⟩]
          ["t"] "linux")).action = "none" :=
  ⟨by decide,
    (C10_offline_runners_counted.2.2.2 [⟨7, "host", "Linux", "offline", false, ["t"]⟩]
      ⟨"lab", 1, ["t"], "linux", ""⟩ (by decide)).2.1⟩

/-- When the pool lookup and the already-registered filter both return
candidates, `allocate_runners` reaches the per-machine registration stage and
classifies the outcome by the number of successful registrations. -/
theorem allocate_runners_final (count : Int) (req : RunnerRequirement)
    (pool : List PoolMachine) (names : List String) (regOk : PoolMachine → Bool)
    (h1 : get_available_machines_from_pool pool req.maas_tags req.platform ≠ [])
    (h2 : (get_available_machines_from_pool pool req.maas_tags req.platform).filter
        (fun m => !(decide (m.hostname ∈ names))) ≠ []) :
    allocate_runners count req pool (some names) true regOk
      = (let t := ((get_available_machines_from_pool pool req.maas_tags
            req.platform).filter (fun m => !(decide (m.hostname ∈ names)))).take
            count.toNat
         let s := t.filter regOk
         if s.length = 0 then ⟨false, "error", t, s⟩
         else if s.length < t.length then ⟨true, "partial", t, s⟩
         else ⟨true, "success", t, s⟩) := by
  simp only [allocate_runners, if_neg h1, if_neg h2, Bool.not_true,
    Bool.false_eq_true, if_false]

/-- C6: when the pool lookup returns zero candidates for an `add` action,
`allocate_runners` reports `pool_exhausted`, `execute_actions` counts it in
the pool-exhausted bucket (not as a failure) and the run exits 0; otherwise,
once machines are targeted, the outcome is `success` exactly when every
targeted machine registered, `partial` exactly when some but not all did, and
a failure exactly when none did. -/
theorem C6_pool_exhausted_and_outcomes :
    ∀ (count : Int) (req : RunnerRequirement) (pool : List PoolMachine)
      (names : List String) (regOk : PoolMachine → Bool) (lbl rsn : String),
      (get_available_machines_from_pool pool req.maas_tags req.platform = [] →
        allocate_runners count req pool (some names) true regOk
            = ⟨true, "pool_exhausted", [], []⟩
        ∧ execute_actions [⟨lbl, "add", count, rsn, some req⟩]
            (fun a r => ((allocate_runners a.count r pool (some names) true regOk).ok,
              (allocate_runners a.count r pool (some names) true regOk).reason))
          = (0, 0, 1)
        ∧ exitCodeOfFailures 0 = 0)
      ∧ ((allocate_runners count req pool (some names) true regOk).targeted ≠ [] →
        (((allocate_runners count req pool (some names) true regOk).ok = true
            ∧ (allocate_runners count req pool (some names) true regOk).reason = "success")
          ↔ (allocate_runners count req pool (some names) true regOk).registered
              = (allocate_runners count req pool (some names) true regOk).targeted)
        ∧ (((allocate_runners count req pool (some names) true regOk).ok = true
            ∧ (allocate_runners count req pool (some names) true regOk).reason = "partial")
          ↔ ((allocate_runners count req pool (some names) true regOk).registered ≠ []
            ∧ (allocate_runners count req pool (some names) true regOk).registered.length
                < (allocate_runners count req pool (some names) true regOk).targeted.length))
        ∧ ((allocate_runners count req pool (some names) true regOk).ok = false
          ↔ (allocate_runners count req pool (some names) true regOk).registered = [])) := by
  intro count req pool names regOk lbl rsn
  constructor
  · intro hemp
    refine ⟨by simp [allocate_runners, hemp], ?_, by simp [exitCodeOfFailures]⟩
    simp [execute_actions, allocate_runners, hemp]
  · intro hne
    have h1 : get_available_machines_from_pool pool req.maas_tags req.platform ≠ [] := by
      intro hc
      apply hne
      simp [allocate_runners, hc]
    have h2 : (get_available_machines_from_pool pool req.maas_tags req.platform).filter
        (fun m => !(decide (m.hostname ∈ names))) ≠ [] := by
      intro hc
      apply hne
      simp [allocate_runners, if_neg h1, hc]
    rw [allocate_runners_final count req pool names regOk h1 h2] at hne ⊢
    simp only at hne ⊢
    by_cases hz : ((((get_available_machines_from_pool pool req.maas_tags
        req.platform).filter (fun m => !(decide (m.hostname ∈ names)))).take
        count.toNat).filter regOk).length = 0
    · rw [if_pos hz] at hne ⊢
      refine ⟨?_, ?_, ?_⟩
      · constructor
        · rintro ⟨-, h⟩
          exact absurd h (by decide : ¬("error" = "success"))
        · intro h
          exact absurd (h.symm.trans (List.length_eq_zero.mp hz)) hne
      · constructor
        · rintro ⟨-, h⟩
          exact absurd h (by decide : ¬("error" = "partial"))
        · rintro ⟨h, -⟩
          exact absurd (List.length_eq_zero.mp hz) h
      · constructor
        · intro _; exact List.length_eq_zero.mp hz
        · intro _; rfl
    · rw [if_neg hz] at hne ⊢
      by_cases hlt : ((((get_available_machines_from_pool pool req.maas_tags
          req.platform).filter (fun m => !(decide (m.hostname ∈ names)))).take
          count.toNat).filter regOk).length
          < (((get_available_machines_from_pool pool req.maas_tags
          req.platform).filter (fun m => !(decide (m.hostname ∈ names)))).take
          count.toNat).length
      · rw [if_pos hlt] at hne ⊢
        refine ⟨?_, ?_, ?_⟩
        · constructor
          · rintro ⟨-, h⟩
            exact absurd h (by decide : ¬("partial" = "success"))
          · intro h
            exact absurd (congrArg List.length h) (Nat.ne_of_lt hlt)
        · constructor
          · intro _
            exact ⟨fun hc => hz (congrArg List.length hc), hlt⟩
          · intro _; exact ⟨rfl, rfl⟩
        · constructor
          · intro h
            exact absurd h (by decide : ¬(true = false))
          · intro h
            exact absurd (congrArg List.length h) hz
      · rw [if_neg hlt] at hne ⊢
        have heq : ((((get_available_machines_from_pool pool req.maas_tags
            req.platform).filter (fun m => !(decide (m.hostname ∈ names)))).take
            count.toNat).filter regOk)
            = ((get_available_machines_from_pool pool req.maas_tags
            req.platform).filter (fun m => !(decide (m.hostname ∈ names)))).take
            count.toNat :=
          (List.filter_sublist _).eq_of_length
            (le_antisymm (List.length_filter_le _ _) (not_lt.mp hlt))
        refine ⟨?_, ?_, ?_⟩
        · constructor
          · intro _; exact heq
          · intro _; exact ⟨rfl, rfl⟩
        · constructor
          · rintro ⟨-, h⟩
            exact absurd h (by decide : ¬("success" = "partial"))
          · rintro ⟨-, h⟩
            exact absurd h (heq ▸ hlt)
        · constructor
          · intro h
            exact absurd h (by decide : ¬(true = false))
          · intro h
            exact absurd (heq.symm.trans h) hne

/-- C6 witness: the pool-exhausted branch at an empty pool, and the outcome
classification at a pool with one available registrable machine. -/
theorem C6_pool_exhausted_and_outcomes_witness :
    (get_available_machines_from_pool [] (RunnerRequirement.maas_tags
        ⟨"lab", 1, ["t"], "linux", ""⟩) (RunnerRequirement.platform
        ⟨"lab", 1, ["t"], "linux", ""⟩) = [])
    ∧ allocate_runners 1 ⟨"lab", 1, ["t"], "linux", ""⟩ [] (some []) true
        (fun _ => true) = ⟨true, "pool_exhausted", [], []⟩
    ∧ (allocate_runners 1 ⟨"lab", 1, ["t"], "linux", ""⟩
        [⟨"M1", ["t"], "linux", "available"⟩] (some []) true
        (fun _ => true)).targeted ≠ []
    ∧ (((allocate_runners 1 ⟨"lab", 1, ["t"], "linux", ""⟩
          [⟨"M1", ["t"], "linux", "available"⟩] (some []) true
          (fun _ => true)).ok = true
        ∧ (allocate_runners 1 ⟨"lab", 1, ["t"], "linux", ""⟩
          [⟨"M1", ["t"], "linux", "available"⟩] (some []) true
          (fun _ => true)).reason = "success")
      ↔ (allocate_runners 1 ⟨"lab", 1, ["t"], "linux", ""⟩
          [⟨"M1", ["t"], "linux", "available"⟩] (some []) true
          (fun _ => true)).registered
        = (allocate_runners 1 ⟨"lab", 1, ["t"], "linux", ""⟩
          [⟨"M1", ["t"], "linux", "available"⟩] (some []) true
          (fun _ => true)).targeted) :=
  ⟨by decide,
    ((C6_pool_exhausted_and_outcomes 1 ⟨"lab", 1, ["t"], "linux", ""⟩ [] []
      (fun _ => true) "lab" "r").1 (by decide)).1,
    by decide,
    ((C6_pool_exhausted_and_outcomes 1 ⟨"lab", 1, ["t"], "linux", ""⟩
      [⟨"M1", ["t"], "linux", "available"⟩] [] (fun _ => true) "lab" "r").2
      (by decide)).1⟩

/-! ### Generic list lemmas for the idempotency argument -/

/-- If membership in `p` implies membership in `q` on the elements of `l`,
the `p`-filter is no longer than the `q`-filter. -/
theorem filter_length_mono_of_imp {α : Type} (p q : α → Bool) :
    ∀ l : List α, (∀ x ∈ l, p x = true → q x = true) →
      (l.filter p).length ≤ (l.filter q).length := by
  intro l
  induction l with
  | nil => intro _; simp
  | cons a l ih =>
    intro h
    have ih2 := ih (fun x hx hp => h x (List.mem_cons_of_mem a hx) hp)
    cases hp : p a
    · cases hq : q a <;> simp [List.filter_cons, hp, hq] <;> omega
    · have hq := h a (List.mem_cons_self a l) hp
      simp [List.filter_cons, hp, hq]
      omega

/-- Members of the first `k` elements surviving the `q`-complement filter lie
within the first `n` elements, provided `k` plus the number of `q`-elements
among those first `n` stays within `n`. -/
theorem take_filter_not_sub_take {α : Type} (l : List α) (q : α → Bool)
    (k n : Nat) (hk : k + ((l.take n).filter q).length ≤ n) :
    ∀ m ∈ (l.filter (fun x => !(q x))).take k, m ∈ l.take n := by
  intro m hm
  rcases le_or_lt l.length n with hlen | hlen
  · rw [List.take_of_length_le hlen]
    exact List.mem_of_mem_filter (List.take_subset _ _ hm)
  · have hsplit : l.filter (fun x => !(q x))
        = (l.take n).filter (fun x => !(q x)) ++ (l.drop n).filter (fun x => !(q x)) := by
      conv_lhs => rw [← List.take_append_drop n l]
      rw [List.filter_append]
    rw [hsplit] at hm
    have hlt : (l.take n).length = n := by
      rw [List.length_take]; omega
    have hpart := List.length_eq_length_filter_add (l := l.take n) q
    have hkA : k ≤ ((l.take n).filter (fun x => !(q x))).length := by
      have : ((l.take n).filter (fun x => !(q x))).length
          = ((l.take n).filter (! q ·)).length := rfl
      omega
    rw [List.take_append_of_le_length hkA] at hm
    exact List.mem_of_mem_filter (List.take_subset _ _ hm)

/-! ### Helper lemmas on the reconciliation model -/

/-- The connected count is additive over concatenated directory listings. -/
theorem connected_append (d t : List RegisteredRunner) (tags : List String)
    (p : String) :
    (get_current_runners (d ++ t) tags p).connected_count
      = (get_current_runners d tags p).connected_count
        + (get_current_runners t tags p).connected_count := by
  simp [get_current_runners, List.filter_append]

/-- The connected count is never negative. -/
theorem connected_nonneg (d : List RegisteredRunner) (tags : List String)
    (p : String) : 0 ≤ (get_current_runners d tags p).connected_count :=
  Int.natCast_nonneg _

/-- A record created by registering a machine for a requirement with a
nonempty tag set matches that requirement's tags and platform. -/
theorem runnerRecordOf_matches (req : RunnerRequirement) (m : PoolMachine)
    (hne : req.maas_tags ≠ []) :
    runnerMatches req.maas_tags req.platform (runnerRecordOf req m) = true := by
  rcases hx : req.maas_tags with _ | ⟨a, rest⟩
  · exact absurd hx hne
  · simp [runnerMatches, runnerRecordOf, hx, List.mem_cons]

/-- Registering `S` machines for a requirement with a nonempty tag set raises
that requirement's connected count by exactly `S.length`. -/
theorem connected_of_records (req : RunnerRequirement) (S : List PoolMachine)
    (hne : req.maas_tags ≠ []) :
    (get_current_runners (S.map (runnerRecordOf req)) req.maas_tags
        req.platform).connected_count = (S.length : Int) := by
  have hall : (S.map (runnerRecordOf req)).filter
      (runnerMatches req.maas_tags req.platform) = S.map (runnerRecordOf req) :=
    List.filter_eq_self.mpr (fun rec hrec => by
      rcases List.mem_map.mp hrec with ⟨m, -, rfl⟩
      exact runnerRecordOf_matches req m hne)
  simp [get_current_runners, hall]

/-- `allocate_runners` registers exactly the targeted machines whose
`register_runner` call succeeded. -/
theorem allocate_registered_eq (count : Int) (req : RunnerRequirement)
    (pool : List PoolMachine) (registeredNames : Option (List String))
    (tokenOk : Bool) (regOk : PoolMachine → Bool) :
    (allocate_runners count req pool registeredNames tokenOk regOk).registered
      = (allocate_runners count req pool registeredNames tokenOk
          regOk).targeted.filter regOk := by
  unfold allocate_runners
  simp only []
  repeat' split
  all_goals rfl

/-- `allocate_runners` with an empty pool-lookup result reports exhaustion. -/
theorem allocate_avail_nil (count : Int) (req : RunnerRequirement)
    (pool : List PoolMachine) (registeredNames : Option (List String))
    (tokenOk : Bool) (regOk : PoolMachine → Bool)
    (h : get_available_machines_from_pool pool req.maas_tags req.platform = []) :
    allocate_runners count req pool registeredNames tokenOk regOk
      = ⟨true, "pool_exhausted", [], []⟩ := by
  simp [allocate_runners, h]

/-- `allocate_runners` with every candidate already registered reports
exhaustion. -/
theorem allocate_unreg_nil (count : Int) (req : RunnerRequirement)
    (pool : List PoolMachine) (names : List String) (tokenOk : Bool)
    (regOk : PoolMachine → Bool)
    (h1 : get_available_machines_from_pool pool req.maas_tags req.platform ≠ [])
    (h2 : (get_available_machines_from_pool pool req.maas_tags req.platform).filter
        (fun m => !(decide (m.hostname ∈ names))) = []) :
    allocate_runners count req pool (some names) tokenOk regOk
      = ⟨true, "pool_exhausted", [], []⟩ := by
  simp [allocate_runners, if_neg h1, h2]

/-- In the final branches, the machines registered are the successful ones
among the first `count` unregistered candidates. -/
theorem allocate_registered_final (count : Int) (req : RunnerRequirement)
    (pool : List PoolMachine) (names : List String) (regOk : PoolMachine → Bool)
    (h1 : get_available_machines_from_pool pool req.maas_tags req.platform ≠ [])
    (h2 : (get_available_machines_from_pool pool req.maas_tags req.platform).filter
        (fun m => !(decide (m.hostname ∈ names))) ≠ []) :
    (allocate_runners count req pool (some names) true regOk).registered
      = ((((get_available_machines_from_pool pool req.maas_tags
          req.platform).filter (fun m => !(decide (m.hostname ∈ names)))).take
          count.toNat).filter regOk) := by
  rw [allocate_runners_final count req pool names regOk h1 h2]
  simp only []
  split
  · rfl
  · split
    · rfl
    · rfl

/-- The planner always records the originating requirement on the action. -/
theorem actionFor_requirement (req : RunnerRequirement) (st : RunnerStatus) :
    (actionFor req st).requirement = some req := by
  unfold actionFor
  split <;> rfl

/-- The planner's action is `add` with the deficit count below target. -/
theorem actionFor_add (req : RunnerRequirement) (st : RunnerStatus)
    (h : st.connected_count < req.max_count) :
    (actionFor req st).action = "add"
    ∧ (actionFor req st).count = req.max_count - st.connected_count := by
  constructor <;> simp [actionFor, h]

/-- The planner's action is `none` at or above target. -/
theorem actionFor_none (req : RunnerRequirement) (st : RunnerStatus)
    (h : ¬ st.connected_count < req.max_count) :
    (actionFor req st).action = "none" := by
  simp [actionFor, h]

/-- A `none` action leaves the directory untouched. -/
theorem execAdd_actionFor_none (pool : List PoolMachine) (regOk : String → Bool)
    (dir : List RegisteredRunner) (req : RunnerRequirement) (st : RunnerStatus)
    (h : ¬ st.connected_count < req.max_count) :
    execAdd pool regOk dir (actionFor req st) = (dir, 0) := by
  simp [execAdd, actionFor_requirement, actionFor_none req st h]

/-- An `add` action appends the records of the machines its
`allocate_runners` call registered. -/
theorem execAdd_actionFor_add (pool : List PoolMachine) (regOk : String → Bool)
    (dir : List RegisteredRunner) (req : RunnerRequirement) (st : RunnerStatus)
    (h : st.connected_count < req.max_count) :
    execAdd pool regOk dir (actionFor req st)
      = (dir ++ ((allocate_runners (req.max_count - st.connected_count) req pool
            (some (dir.map (fun rec => rec.name))) true
            (fun m => regOk m.hostname)).registered.map (runnerRecordOf req)),
          ((allocate_runners (req.max_count - st.connected_count) req pool
            (some (dir.map (fun rec => rec.name))) true
            (fun m => regOk m.hostname)).registered.length)) := by
  simp [execAdd, actionFor_requirement, (actionFor_add req st h).1,
    (actionFor_add req st h).2]

/-- Every record `execAdd` appends carries a hostname whose registration
succeeded, and the reported count is the number of appended records. -/
theorem execAdd_adds (pool : List PoolMachine) (regOk : String → Bool)
    (dir : List RegisteredRunner) (act : AllocationAction) :
    ∃ w, (execAdd pool regOk dir act).1 = dir ++ w
      ∧ (∀ rec ∈ w, regOk rec.name = true)
      ∧ (execAdd pool regOk dir act).2 = w.length := by
  rcases hreq : act.requirement with _ | req
  · refine ⟨[], ?_, ?_, ?_⟩
    · simp [execAdd, hreq]
    · intro rec h; cases h
    · simp [execAdd, hreq]
  · by_cases hadd : act.action = "add"
    · refine ⟨(allocate_runners act.count req pool
          (some (dir.map (fun rec => rec.name))) true
          (fun m => regOk m.hostname)).registered.map (runnerRecordOf req),
        ?_, ?_, ?_⟩
      · simp [execAdd, hreq, hadd]
      · intro rec hrec
        rcases List.mem_map.mp hrec with ⟨m, hm, rfl⟩
        rw [allocate_registered_eq] at hm
        exact (List.mem_filter.mp hm).2
      · simp [execAdd, hreq, hadd]
    · refine ⟨[], ?_, ?_, ?_⟩
      · simp [execAdd, hreq, hadd]
      · intro rec h; cases h
      · simp [execAdd, hreq, hadd]

/-- Sequentially executed actions only append records of successfully
registered hostnames. -/
theorem runActions_adds (pool : List PoolMachine) (regOk : String → Bool) :
    ∀ (acts : List AllocationAction) (dir : List RegisteredRunner),
      ∃ u, (runActions pool regOk acts dir).1 = dir ++ u
        ∧ ∀ rec ∈ u, regOk rec.name = true := by
  intro acts
  induction acts with
  | nil =>
    intro dir
    exact ⟨[], by simp [runActions], by intro rec h; cases h⟩
  | cons a acts ih =>
    intro dir
    rcases execAdd_adds pool regOk dir a with ⟨w, hw, hwall, -⟩
    rcases ih (execAdd pool regOk dir a).1 with ⟨u, hu, huall⟩
    refine ⟨w ++ u, ?_, ?_⟩
    · show (runActions pool regOk acts (execAdd pool regOk dir a).1).1 = _
      rw [hu, hw, List.append_assoc]
    · intro rec hrec
      rcases List.mem_append.mp hrec with h | h
      · exact hwall rec h
      · exact huall rec h

/-- In the final branches, the targeted machines are the first `count`
unregistered candidates. -/
theorem allocate_targeted_final (count : Int) (req : RunnerRequirement)
    (pool : List PoolMachine) (names : List String) (regOk : PoolMachine → Bool)
    (h1 : get_available_machines_from_pool pool req.maas_tags req.platform ≠ [])
    (h2 : (get_available_machines_from_pool pool req.maas_tags req.platform).filter
        (fun m => !(decide (m.hostname ∈ names))) ≠ []) :
    (allocate_runners count req pool (some names) true regOk).targeted
      = ((get_available_machines_from_pool pool req.maas_tags
          req.platform).filter (fun m => !(decide (m.hostname ∈ names)))).take
          count.toNat := by
  rw [allocate_runners_final count req pool names regOk h1 h2]
  simp only []
  split
  · rfl
  · split
    · rfl
    · rfl

/-- A failed token issuance aborts allocation before targeting machines. -/
theorem allocate_token_false (count : Int) (req : RunnerRequirement)
    (pool : List PoolMachine) (names : List String) (regOk : PoolMachine → Bool)
    (h1 : get_available_machines_from_pool pool req.maas_tags req.platform ≠ [])
    (h2 : (get_available_machines_from_pool pool req.maas_tags req.platform).filter
        (fun m => !(decide (m.hostname ∈ names))) ≠ []) :
    allocate_runners count req pool (some names) false regOk
      = ⟨false, "error", [], []⟩ := by
  simp only [allocate_runners, if_neg h1, if_neg h2]
  rfl

/-- Running the planner-executor pass a second time from the directory state
the first pass produced performs no registration: every candidate the second
pass would target was either already attempted (and failed) in the first pass
or is now filtered out as registered. -/
theorem second_pass_zero (pool : List PoolMachine) (regOk : String → Bool)
    (D0 : List RegisteredRunner) :
    ∀ (rs : List RunnerRequirement) (d D1 : List RegisteredRunner),
      (∃ t0, d = D0 ++ t0) →
      (runActions pool regOk
          (calculate_allocation_actions rs
            (fun tags p => get_current_runners D0 tags p)) d).1 = D1 →
      runActions pool regOk
          (calculate_allocation_actions rs
            (fun tags p => get_current_runners D1 tags p)) D1
        = (D1, 0) := by
  intro rs
  induction rs with
  | nil =>
    intro d D1 hd h2
    rfl
  | cons r rs ih =>
    intro d D1 hd h2
    obtain ⟨t0, ht0⟩ := hd
    have hrunco : ∀ (a : AllocationAction) (acts : List AllocationAction)
        (dir : List RegisteredRunner),
        runActions pool regOk (a :: acts) dir
          = ((runActions pool regOk acts (execAdd pool regOk dir a).1).1,
             (execAdd pool regOk dir a).2
               + (runActions pool regOk acts (execAdd pool regOk dir a).1).2) :=
      fun a acts dir => rfl
    have h2' : (runActions pool regOk
        (calculate_allocation_actions rs (fun tags p => get_current_runners D0 tags p))
        ((execAdd pool regOk d
          (actionFor r (get_current_runners D0 r.maas_tags r.platform))).1)).1 = D1 := h2
    obtain ⟨w, hw, hwall, -⟩ := execAdd_adds pool regOk d
      (actionFor r (get_current_runners D0 r.maas_tags r.platform))
    obtain ⟨u, hu, huall⟩ := runActions_adds pool regOk
      (calculate_allocation_actions rs (fun tags p => get_current_runners D0 tags p))
      ((execAdd pool regOk d
        (actionFor r (get_current_runners D0 r.maas_tags r.platform))).1)
    have hD1 : D1 = d ++ w ++ u := by
      rw [← h2', hu, hw]
    have hstep : execAdd pool regOk D1
        (actionFor r (get_current_runners D1 r.maas_tags r.platform)) = (D1, 0) := by
      by_cases hB : (get_current_runners D1 r.maas_tags r.platform).connected_count
          < r.max_count
      · rw [execAdd_actionFor_add pool regOk D1 r _ hB]
        suffices hreg : (allocate_runners
            (r.max_count - (get_current_runners D1 r.maas_tags r.platform).connected_count)
            r pool (some (D1.map (fun rec => rec.name))) true
            (fun m => regOk m.hostname)).registered = [] by
          rw [hreg]
          simp
        by_cases havail : get_available_machines_from_pool pool r.maas_tags r.platform = []
        · rw [allocate_avail_nil _ _ _ _ _ _ havail]
        · by_cases hu2 : (get_available_machines_from_pool pool r.maas_tags
              r.platform).filter (fun m =>
                !(decide (m.hostname ∈ D1.map (fun rec => rec.name)))) = []
          · rw [allocate_unreg_nil _ _ _ _ _ _ havail hu2]
          · -- tag set must be nonempty, else the pool lookup is empty
            have htags : r.maas_tags ≠ [] := by
              intro hnil
              apply havail
              apply List.filter_eq_nil_iff.mpr
              intro m _
              simp [hnil]
            -- the already-registered filter of the second pass factors through
            -- the first pass's filter
            have hnames : D1.map (fun rec => rec.name)
                = d.map (fun rec => rec.name) ++ (w ++ u).map (fun rec => rec.name) := by
              rw [hD1, List.append_assoc, List.map_append]
            have hunreg₂ : (get_available_machines_from_pool pool r.maas_tags
                  r.platform).filter (fun m =>
                    !(decide (m.hostname ∈ D1.map (fun rec => rec.name))))
                = ((get_available_machines_from_pool pool r.maas_tags
                    r.platform).filter (fun m =>
                      !(decide (m.hostname ∈ d.map (fun rec => rec.name))))).filter
                    (fun m =>
                      !(decide (m.hostname ∈ (w ++ u).map (fun rec => rec.name)))) := by
              rw [List.filter_filter]
              apply List.filter_congr
              intro m _
              by_cases hmd : m.hostname ∈ d.map (fun rec => rec.name) <;>
                by_cases hmr : m.hostname ∈ (w ++ u).map (fun rec => rec.name) <;>
                  simp [hnames, List.mem_append, hmd, hmr]
            by_cases hl : (get_available_machines_from_pool pool r.maas_tags
                r.platform).filter (fun m =>
                  !(decide (m.hostname ∈ d.map (fun rec => rec.name)))) = []
            · exfalso
              apply hu2
              rw [hunreg₂, hl]
              rfl
            · -- the first pass's head action was an add as well
              have hobs_d : (get_current_runners d r.maas_tags r.platform).connected_count
                  = (get_current_runners D0 r.maas_tags r.platform).connected_count
                    + (get_current_runners t0 r.maas_tags r.platform).connected_count := by
                rw [ht0, connected_append]
              have hobs_D1 : (get_current_runners D1 r.maas_tags r.platform).connected_count
                  = (get_current_runners d r.maas_tags r.platform).connected_count
                    + (get_current_runners w r.maas_tags r.platform).connected_count
                    + (get_current_runners u r.maas_tags r.platform).connected_count := by
                rw [hD1, connected_append, connected_append]
              have hnn_t0 := connected_nonneg t0 r.maas_tags r.platform
              have hnn_w := connected_nonneg w r.maas_tags r.platform
              have hnn_u := connected_nonneg u r.maas_tags r.platform
              have hB0 : (get_current_runners D0 r.maas_tags r.platform).connected_count
                  < r.max_count := by omega
              -- identify the records the first pass's head action appended
              have hw_eq : w = (allocate_runners
                  (r.max_count
                    - (get_current_runners D0 r.maas_tags r.platform).connected_count)
                  r pool (some (d.map (fun rec => rec.name))) true
                  (fun m => regOk m.hostname)).registered.map (runnerRecordOf r) := by
                have := hw
                rw [execAdd_actionFor_add pool regOk d r _ hB0] at this
                exact (List.append_cancel_left this).symm
              have hS_eq : (allocate_runners
                  (r.max_count
                    - (get_current_runners D0 r.maas_tags r.platform).connected_count)
                  r pool (some (d.map (fun rec => rec.name))) true
                  (fun m => regOk m.hostname)).registered
                  = (((get_available_machines_from_pool pool r.maas_tags
                      r.platform).filter (fun m =>
                        !(decide (m.hostname ∈ d.map (fun rec => rec.name))))).take
                      (r.max_count
                        - (get_current_runners D0 r.maas_tags
                            r.platform).connected_count).toNat).filter
                      (fun m => regOk m.hostname) :=
                allocate_registered_final _ _ _ _ _ havail hl
              -- the connected count the second pass observes grew by at least
              -- the number of machines the head action registered
              have hobs_w : (get_current_runners w r.maas_tags r.platform).connected_count
                  = ((allocate_runners
                      (r.max_count
                        - (get_current_runners D0 r.maas_tags r.platform).connected_count)
                      r pool (some (d.map (fun rec => rec.name))) true
                      (fun m => regOk m.hostname)).registered.length : Int) := by
                rw [hw_eq, connected_of_records r _ htags]
              rw [allocate_registered_final _ _ _ _ _ havail hu2]
              apply List.filter_eq_nil_iff.mpr
              intro m hm hcon
              -- every hostname in the second-pass exclusion list registered
              -- successfully
              have hRok : ∀ x ∈ (w ++ u).map (fun rec => rec.name), regOk x = true := by
                intro x hx
                rcases List.mem_map.mp hx with ⟨rec, hrec, rfl⟩
                rcases List.mem_append.mp hrec with h | h
                · exact hwall rec h
                · exact huall rec h
              -- counting: the second-pass quota plus the exclusions among the
              -- first-pass targets fit within the first-pass quota
              have hfR : (((( get_available_machines_from_pool pool r.maas_tags
                    r.platform).filter (fun m =>
                      !(decide (m.hostname ∈ d.map (fun rec => rec.name))))).take
                    (r.max_count
                      - (get_current_runners D0 r.maas_tags
                          r.platform).connected_count).toNat).filter
                    (fun m => decide (m.hostname
                      ∈ (w ++ u).map (fun rec => rec.name)))).length
                  ≤ ((((get_available_machines_from_pool pool r.maas_tags
                    r.platform).filter (fun m =>
                      !(decide (m.hostname ∈ d.map (fun rec => rec.name))))).take
                    (r.max_count
                      - (get_current_runners D0 r.maas_tags
                          r.platform).connected_count).toNat).filter
                    (fun m => regOk m.hostname)).length := by
                apply filter_length_mono_of_imp
                intro x _ hx
                exact hRok x.hostname (of_decide_eq_true hx)
              have hSlen : ((((get_available_machines_from_pool pool r.maas_tags
                    r.platform).filter (fun m =>
                      !(decide (m.hostname ∈ d.map (fun rec => rec.name))))).take
                    (r.max_count
                      - (get_current_runners D0 r.maas_tags
                          r.platform).connected_count).toNat).filter
                    (fun m => regOk m.hostname)).length
                  ≤ (r.max_count
                      - (get_current_runners D0 r.maas_tags
                          r.platform).connected_count).toNat := by
                calc _ ≤ (((get_available_machines_from_pool pool r.maas_tags
                      r.platform).filter (fun m =>
                        !(decide (m.hostname ∈ d.map (fun rec => rec.name))))).take
                      (r.max_count
                        - (get_current_runners D0 r.maas_tags
                            r.platform).connected_count).toNat).length :=
                    List.length_filter_le _ _
                  _ ≤ _ := by
                    rw [List.length_take]
                    omega
              have hcount : (r.max_count
                    - (get_current_runners D1 r.maas_tags
                        r.platform).connected_count).toNat
                  + (((( get_available_machines_from_pool pool r.maas_tags
                      r.platform).filter (fun m =>
                        !(decide (m.hostname ∈ d.map (fun rec => rec.name))))).take
                      (r.max_count
                        - (get_current_runners D0 r.maas_tags
                            r.platform).connected_count).toNat).filter
                      (fun m => decide (m.hostname
                        ∈ (w ++ u).map (fun rec => rec.name)))).length
                  ≤ (r.max_count
                      - (get_current_runners D0 r.maas_tags
                          r.platform).connected_count).toNat := by
                rw [hS_eq] at hobs_w
                omega
              rw [hunreg₂] at hm
              have hmem_take := take_filter_not_sub_take
                ((get_available_machines_from_pool pool r.maas_tags
                  r.platform).filter (fun m =>
                    !(decide (m.hostname ∈ d.map (fun rec => rec.name)))))
                (fun m => decide (m.hostname ∈ (w ++ u).map (fun rec => rec.name)))
                (r.max_count
                  - (get_current_runners D1 r.maas_tags
                      r.platform).connected_count).toNat
                (r.max_count
                  - (get_current_runners D0 r.maas_tags
                      r.platform).connected_count).toNat
                hcount m hm
              -- the machine was not excluded, so its hostname is not among the
              -- first pass's successful registrations
              have hnotR : ¬ m.hostname ∈ (w ++ u).map (fun rec => rec.name) := by
                have hmf := List.take_subset _ _ hm
                have := (List.mem_filter.mp hmf).2
                simpa using this
              apply hnotR
              -- yet it was targeted in the first pass and `regOk` succeeded,
              -- so the first pass registered it
              have hmS : m ∈ (allocate_runners
                  (r.max_count
                    - (get_current_runners D0 r.maas_tags r.platform).connected_count)
                  r pool (some (d.map (fun rec => rec.name))) true
                  (fun m => regOk m.hostname)).registered := by
                rw [hS_eq]
                exact List.mem_filter.mpr ⟨hmem_take, hcon⟩
              have : m.hostname ∈ w.map (fun rec => rec.name) := by
                rw [hw_eq, List.map_map]
                exact List.mem_map_of_mem _ hmS
              rw [List.map_append]
              exact List.mem_append.mpr (Or.inl this)
      · exact execAdd_actionFor_none pool regOk D1 r _ hB
    have hIH := ih ((execAdd pool regOk d
        (actionFor r (get_current_runners D0 r.maas_tags r.platform))).1) D1
      ⟨t0 ++ w, by rw [hw, ht0, List.append_assoc]⟩ h2'
    show runActions pool regOk
        (actionFor r (get_current_runners D1 r.maas_tags r.platform)
          :: calculate_allocation_actions rs
            (fun tags p => get_current_runners D1 tags p)) D1 = (D1, 0)
    rw [hrunco, hstep]
    rw [hIH]
    rfl

/-- C7: the executor never targets a machine whose hostname appears in the
current registration-directory listing (the already-registered filter), and
running the full reconciliation twice in succession with unchanged external
behavior (same pool, same per-hostname registration outcomes) performs zero
registrations on the second run. -/
theorem C7_registered_filter_and_idempotency :
    (∀ (count : Int) (req : RunnerRequirement) (pool : List PoolMachine)
        (names : List String) (tokenOk : Bool) (regOk : PoolMachine → Bool)
        (m : PoolMachine),
        m ∈ (allocate_runners count req pool (some names) tokenOk regOk).targeted →
        ¬ m.hostname ∈ names)
    ∧ (∀ (reqs : List RunnerRequirement) (pool : List PoolMachine)
          (regOk : String → Bool) (dir : List RegisteredRunner),
        (reconcileOnce reqs pool regOk
          (reconcileOnce reqs pool regOk dir).1).2 = 0) := by
  constructor
  · intro count req pool names tokenOk regOk m hmem
    by_cases havail : get_available_machines_from_pool pool req.maas_tags
        req.platform = []
    · rw [allocate_avail_nil _ _ _ _ _ _ havail] at hmem
      cases hmem
    · by_cases hunreg : (get_available_machines_from_pool pool req.maas_tags
          req.platform).filter (fun m => !(decide (m.hostname ∈ names))) = []
      · rw [allocate_unreg_nil _ _ _ _ _ _ havail hunreg] at hmem
        cases hmem
      · cases tokenOk with
        | false =>
          rw [allocate_token_false _ _ _ _ _ havail hunreg] at hmem
          cases hmem
        | true =>
          rw [allocate_targeted_final _ _ _ _ _ havail hunreg] at hmem
          have hmf := List.take_subset _ _ hmem
          have := (List.mem_filter.mp hmf).2
          simpa using this
  · intro reqs pool regOk dir
    have h := second_pass_zero pool regOk dir reqs dir
      (reconcileOnce reqs pool regOk dir).1 ⟨[], by simp⟩ rfl
    show (runActions pool regOk
        (calculate_allocation_actions reqs
          (fun tags p =>
            get_current_runners (reconcileOnce reqs pool regOk dir).1 tags p))
        (reconcileOnce reqs pool regOk dir).1).2 = 0
    rw [h]

/-- C7 witness: the filter property at a pool machine that is targeted while
absent from the listing, and a concrete double reconciliation (one of the two
machines fails registration persistently) whose second pass registers
nothing. -/
theorem C7_registered_filter_and_idempotency_witness :
    ((⟨"M1", ["t"], "linux", "available"⟩ : PoolMachine)
        ∈ (allocate_runners 1 ⟨"lab", 1, ["t"], "linux", ""⟩
            [⟨"M1", ["t"], "linux", "available"⟩] (some ["x"]) true
            (fun _ => true)).targeted)
    ∧ ¬ (PoolMachine.hostname ⟨"M1", ["t"], "linux", "available"⟩) ∈ ["x"]
    ∧ (reconcileOnce [⟨"lab", 2, ["t"], "linux", ""⟩]
        [⟨"M1", ["t"], "linux", "available"⟩, ⟨"M2", ["t"], "linux", "available"⟩]
        (fun h => h = "M1")
        (reconcileOnce [⟨"lab", 2, ["t"], "linux", ""⟩]
          [⟨"M1", ["t"], "linux", "available"⟩, ⟨"M2", ["t"], "linux", "available"⟩]
          (fun h => h = "M1") []).1).2 = 0 :=
  ⟨by decide,
    C7_registered_filter_and_idempotency.1 1 ⟨"lab", 1, ["t"], "linux", ""⟩
      [⟨"M1", ["t"], "linux", "available"⟩] ["x"] true (fun _ => true)
      ⟨"M1", ["t"], "linux", "available"⟩ (by decide),
    C7_registered_filter_and_idempotency.2 [⟨"lab", 2, ["t"], "linux", ""⟩]
      [⟨"M1", ["t"], "linux", "available"⟩, ⟨"M2", ["t"], "linux", "available"⟩]
      (fun h => h = "M1") []⟩

end UCICD
